import Mathlib

/-!
Shallow embedding of the onboarding progress store of
`src/chatbot/agents/tools.py` (the copy in `src/agents/tools.py` has the
identical onboarding functions).

Modelling decisions, each tied to the source:

* A Python checklist item dict `{"id": ..., "title": ..., "done": ...}`
  becomes the structure `Item`.
* The persisted JSON file `data/onboarding.json` is a mapping from user id
  to a record `{"checklist": [...], "history": [...]}`; Python dicts are
  insertion ordered, so the store is an association list (`Store`) looked
  up by first match, with fresh users appended at the end
  (`_ensure_user`).  `_load` returns `{}` when the file is missing, so the
  initial store is `[]`.
* `DEFAULT_CHECKLIST.copy()` in `_ensure_user` is a SHALLOW list copy: the
  item dicts themselves are shared with the module-level
  `DEFAULT_CHECKLIST`.  Consequently, when `mark_onboarding_step` mutates
  an item of a checklist that was freshly created in the same call
  (`s["done"] = bool(done)`), the module-level template is mutated too,
  and every later fresh user receives the mutated template.  JSON
  serialisation (`_save`/`_load`) deep-copies, so the template list is the
  only aliasing channel that survives a call.  The process state is
  therefore the pair `St` of the in-memory template (`tmpl`, the current
  value of `DEFAULT_CHECKLIST`) and the file contents (`file`).
* `time.time()` is modelled as an explicit `Nat` argument counting
  nanoseconds; Python's `int(time.time())` is then `t / nsPerSec`.
  Operations that read the clock twice take two time arguments.
* Python `str.split(":")` is `splitOnColon` (`"".split(":") == [""]`,
  empty segments kept); `str.lower()` is `lowerStr`, ASCII lowercasing,
  which agrees with Python on every comparison the code performs (the
  only lowercased strings are compared against the ASCII words
  `"done"/"true"/"yes"`).
* Every tool returns a string and never raises; each embedded operation is
  a total function `... → St → String × St` returning the reply string and
  the new process state.
-/

namespace Onboarding

/-- One checklist item dict: `{"id": str, "title": str, "done": bool}`. -/
structure Item where
  id : String
  title : String
  done : Bool
deriving DecidableEq

/-- One history event dict, by kind:
`{"ts", "step", "done"}` from `mark_onboarding_step`,
`{"ts", "action": "sandbox_request", "ticket"}` from
`request_sandbox_access`, and
`{"ts", "action": "dummy_data", "dataset", "size", "req"}` from
`request_dummy_data`. -/
inductive Event where
  | stepToggle (ts : Nat) (step : String) (done : Bool)
  | sandboxRequest (ts : Nat) (ticket : String)
  | dummyData (ts : Nat) (dataset : String) (size : String) (req : String)
deriving DecidableEq

/-- A per-user record: `{"checklist": [...], "history": [...]}`. -/
structure UserRec where
  checklist : List Item
  history : List Event
deriving DecidableEq

/-- The persisted JSON document: user id keyed, insertion ordered. -/
abbrev Store := List (String × UserRec)

/-- The per-process state: the in-memory `DEFAULT_CHECKLIST` list (shared
through shallow copies, see the header) and the file contents. -/
structure St where
  tmpl : List Item
  file : Store
deriving DecidableEq

/-- The module-level `DEFAULT_CHECKLIST` literal. -/
def DEFAULT_CHECKLIST : List Item :=
  [ ⟨"d1-setup", "Day 1: Laptop, SSO, email, chat", false⟩,
    ⟨"join-channels", "Join team channels & calendars", false⟩,
    ⟨"install-tools", "Install dev/tools (IDE, VPN, ticketing)", false⟩,
    ⟨"sandbox", "Request sandbox access", false⟩,
    ⟨"train-sec", "Security Awareness training", false⟩,
    ⟨"train-data", "Data Protection training", false⟩,
    ⟨"dummy", "Get dummy data in sandbox", false⟩,
    ⟨"demo", "5-min end-of-week demo", false⟩ ]

/-- Process start: pristine template, `data/onboarding.json` absent. -/
def initSt : St := ⟨DEFAULT_CHECKLIST, []⟩

/-- Dict lookup `db[user]` / `user in db` (first matching key). -/
def lookupUser : Store → String → Option UserRec
  | [], _ => none
  | (k, r) :: rest, u => if k = u then some r else lookupUser rest u

/-- Dict item assignment `db[user] = rec` for a present key (replaces the
value in place, keeping the position). -/
def setStore : Store → String → UserRec → Store
  | [], _, _ => []
  | (k, r0) :: rest, u, r =>
      if k = u then (k, r) :: setStore rest u r else (k, r0) :: setStore rest u r

/-- `_ensure_user(db, user)`: insert
`{"checklist": DEFAULT_CHECKLIST.copy(), "history": []}` at the end when
the user is absent.  The shallow copy means the new record's checklist is
the current template value. -/
def ensureUser (db : Store) (tmpl : List Item) (u : String) : Store :=
  match lookupUser db u with
  | some _ => db
  | none => db ++ [(u, ⟨tmpl, []⟩)]

/-- The record `db[user]` right after `_load` + `_ensure_user`: the stored
record when present, else the fresh one built from the current template. -/
def seenRec (st : St) (u : String) : UserRec :=
  (lookupUser (ensureUser st.file st.tmpl u) u).getD ⟨st.tmpl, []⟩

/-- The history of user `u` in the persisted file (`[]` when absent). -/
def histOf (st : St) (u : String) : List Event :=
  ((lookupUser st.file u).map (fun r => r.history)).getD []

/-- Python `s.split(":")` on the character list. -/
def splitAux : List Char → List Char → List (List Char)
  | [], acc => [acc.reverse]
  | c :: cs, acc =>
      if c = ':' then acc.reverse :: splitAux cs [] else splitAux cs (c :: acc)

/-- Python `s.split(":")`: keeps empty segments, `"".split(":") == [""]`. -/
def splitOnColon (s : String) : List String :=
  (splitAux s.data []).map (fun l => ⟨l⟩)

/-- Python `s.lower()` restricted to ASCII (see the header note). -/
def lowerStr (s : String) : String := ⟨s.data.map Char.toLower⟩

/-- Python nanoseconds per second: `int(time.time())` = `t / nsPerSec`
for a clock reading `t` in nanoseconds. -/
def nsPerSec : Nat := 1000000000

/-- Python `", ".join(ids)`. -/
def joinComma : List String → String
  | [] => ""
  | [x] => x
  | x :: y :: rest => x ++ ", " ++ joinComma (y :: rest)

/-- `sum(1 for item in checklist if item["done"])`. -/
def completedCount (cl : List Item) : Nat := (cl.filter (fun s => s.done)).length

/-- One line of the checklist rendering:
`f"{status} {item['title']}\n"` with `status` `✅`/`⭕`. -/
def itemLine (s : Item) : String :=
  (if s.done then "✅" else "⭕") ++ " " ++ s.title ++ "\n"

/-- The full text built by `get_onboarding_checklist`. -/
def renderChecklist (cl : List Item) : String :=
  "Your Onboarding Checklist:\n\n"
    ++ String.join (cl.map itemLine)
    ++ "\nProgress: " ++ toString (completedCount cl) ++ "/"
    ++ toString cl.length ++ " completed"

/-- `get_onboarding_checklist(user)`: `_load`, `_ensure_user`, render
`db[user]["checklist"]`.  No `_save` is executed on this path, so the
process state is returned unchanged. -/
def get_onboarding_checklist (user : String) (st : St) : String × St :=
  (renderChecklist (seenRec st user).checklist, st)

/-- The words whose lowercase form means true:
`parts[2].lower() in ["done", "true", "yes"]`. -/
def truthyWords : List String := ["done", "true", "yes"]

/-- The argument parsing of `mark_onboarding_step` (lines 57-63):
`none` models the early `return` for fewer than two parts, otherwise the
`(user, step_id, done)` triple with `done` defaulting to true. -/
def markParse (user_and_step : String) : Option (String × String × Bool) :=
  let parts := splitOnColon user_and_step
  if parts.length < 2 then none
  else some (parts.getD 0 "", parts.getD 1 "",
    if parts.length = 2 then true
    else truthyWords.contains (lowerStr (parts.getD 2 "")))

/-- The `for s in db[user]["checklist"]: if s["id"] == step_id` search:
first item with the given id. -/
def findStep : List Item → String → Option Item
  | [], _ => none
  | s :: rest, sid => if s.id = sid then some s else findStep rest sid

/-- The in-place update `s["done"] = bool(done)` of the first item with
the given id (the loop returns right after the first match). -/
def setFirstDone : List Item → String → Bool → List Item
  | [], _, _ => []
  | s :: rest, sid, d =>
      if s.id = sid then { s with done := d } :: rest
      else s :: setFirstDone rest sid d

/-- The template after a successful mark: when the user was absent from
the file, the freshly ensured checklist is the shallow-copied
`DEFAULT_CHECKLIST`, so mutating its matched item also mutates the
module-level template. -/
def markTmpl (st : St) (user step_id : String) (d : Bool) : List Item :=
  if (lookupUser st.file user).isNone then setFirstDone st.tmpl step_id d
  else st.tmpl

/-- `mark_onboarding_step(user_and_step)` at clock reading `t`. -/
def mark_onboarding_step (user_and_step : String) (t : Nat) (st : St) :
    String × St :=
  match markParse user_and_step with
  | none => ("Format: 'username:step_id' or 'username:step_id:done'", st)
  | some (user, step_id, d) =>
      match findStep (seenRec st user).checklist step_id with
      | some s =>
          ("✅ Step '" ++ s.title ++ "' marked "
             ++ (if d then "done" else "not done") ++ ".",
           ⟨markTmpl st user step_id d,
            setStore (ensureUser st.file st.tmpl user) user
              ⟨setFirstDone (seenRec st user).checklist step_id d,
               (seenRec st user).history ++ [Event.stepToggle t step_id d]⟩⟩)
      | none =>
          ("❌ Step '" ++ step_id ++ "' not found. Available steps: "
             ++ joinComma ((seenRec st user).checklist.map (fun s => s.id)),
           st)

/-- `f"SANDBOX-{int(time.time())}"`. -/
def sandboxTicket (t : Nat) : String := "SANDBOX-" ++ toString (t / nsPerSec)

/-- `request_sandbox_access(user)`; `tTicket` is the clock reading used
for the ticket id, `tEv` the one stored in the history event. -/
def request_sandbox_access (user : String) (tTicket tEv : Nat) (st : St) :
    String × St :=
  ("🎫 Sandbox access requested! Ticket: " ++ sandboxTicket tTicket
     ++ "\n📅 Expected within 1 business day.\n💡 You'll receive an email when it's ready.",
   ⟨st.tmpl,
    setStore (ensureUser st.file st.tmpl user) user
      ⟨(seenRec st user).checklist,
       (seenRec st user).history
         ++ [Event.sandboxRequest tEv (sandboxTicket tTicket)]⟩⟩)

/-- `f"DUMMY-{int(time.time())}"`. -/
def dummyReq (t : Nat) : String := "DUMMY-" ++ toString (t / nsPerSec)

/-- `request_dummy_data(query)`; `tReq` is the clock reading used for the
request id, `tEv` the one stored in the history event.  `parts` is never
empty (shown below), so the `"unknown"` default is dead code, kept for
faithfulness to `user = parts[0] if parts else "unknown"`. -/
def request_dummy_data (query : String) (tReq tEv : Nat) (st : St) :
    String × St :=
  let parts := splitOnColon query
  let user := if parts.isEmpty then "unknown" else parts.getD 0 ""
  let dataset := if parts.length > 1 then parts.getD 1 "" else "sample_orders"
  let size := if parts.length > 2 then parts.getD 2 "" else "small"
  ("📊 Dummy data requested!\n🎫 Request ID: " ++ dummyReq tReq
     ++ "\n📋 Dataset: " ++ dataset ++ " (" ++ size
     ++ ")\n👤 Notifying Jean from Data Team\n⚠️  Reminder: Use sandbox only - no PII allowed!",
   ⟨st.tmpl,
    setStore (ensureUser st.file st.tmpl user) user
      ⟨(seenRec st user).checklist,
       (seenRec st user).history
         ++ [Event.dummyData tEv dataset size (dummyReq tReq)]⟩⟩)

/-- One store operation, for reasoning about arbitrary call sequences. -/
inductive Op where
  | getOp (user : String)
  | markOp (input : String) (t : Nat)
  | sandboxOp (user : String) (t1 t2 : Nat)
  | dummyOp (query : String) (t1 t2 : Nat)

/-- The state transition of one operation (the reply string dropped). -/
def step : Op → St → St
  | .getOp u, st => (get_onboarding_checklist u st).2
  | .markOp i t, st => (mark_onboarding_step i t st).2
  | .sandboxOp u t1 t2, st => (request_sandbox_access u t1 t2 st).2
  | .dummyOp q t1 t2, st => (request_dummy_data q t1 t2 st).2

/-- Run a sequence of operations from a state. -/
def run (ops : List Op) (st : St) : St := ops.foldl (fun s op => step op s) st

/-- The template's fixed ids, in order. -/
def defaultIds : List String := DEFAULT_CHECKLIST.map (fun s => s.id)

/-- Store invariant: the in-memory template and every stored record carry
exactly the template's ids, in template order. -/
def Inv (st : St) : Prop :=
  st.tmpl.map (fun s => s.id) = defaultIds ∧
  ∀ u r, lookupUser st.file u = some r →
    r.checklist.map (fun s => s.id) = defaultIds

/-! ## Lookup and update lemmas -/

lemma lookupUser_append_none (db : Store) (u : String) (x : UserRec)
    (h : lookupUser db u = none) : lookupUser (db ++ [(u, x)]) u = some x := by
  induction db with
  | nil => simp [lookupUser]
  | cons hd tl ih =>
      obtain ⟨k, r⟩ := hd
      by_cases hk : k = u
      · simp [lookupUser, hk] at h
      · simp only [lookupUser, List.cons_append, hk, if_false] at h ⊢
        exact ih h

lemma lookupUser_append_ne (db : Store) (u v : String) (x : UserRec)
    (h : v ≠ u) : lookupUser (db ++ [(u, x)]) v = lookupUser db v := by
  have huv : ¬ u = v := fun e => h e.symm
  induction db with
  | nil => simp [lookupUser, huv]
  | cons hd tl ih =>
      obtain ⟨k, r⟩ := hd
      by_cases hk : k = v
      · simp [lookupUser, hk]
      · simp only [lookupUser, List.cons_append, hk, if_false]
        exact ih

lemma lookupUser_ensure_self (db : Store) (tmpl : List Item) (u : String) :
    lookupUser (ensureUser db tmpl u) u
      = some ((lookupUser db u).getD ⟨tmpl, []⟩) := by
  cases h : lookupUser db u with
  | some r => simp [ensureUser, h]
  | none => simp [ensureUser, h, lookupUser_append_none db u _ h]

lemma lookupUser_ensure_ne (db : Store) (tmpl : List Item) (u v : String)
    (h : v ≠ u) : lookupUser (ensureUser db tmpl u) v = lookupUser db v := by
  cases hu : lookupUser db u with
  | some r => simp [ensureUser, hu]
  | none => simp [ensureUser, hu, lookupUser_append_ne db u v _ h]

lemma lookupUser_set (db : Store) (u : String) (r : UserRec) :
    lookupUser (setStore db u r) u = (lookupUser db u).map (fun _ => r) := by
  induction db with
  | nil => simp [lookupUser, setStore]
  | cons hd tl ih =>
      obtain ⟨k, r0⟩ := hd
      by_cases hk : k = u
      · simp [lookupUser, setStore, hk]
      · simp [lookupUser, setStore, hk, ih]

lemma lookupUser_set_ne (db : Store) (u v : String) (r : UserRec)
    (h : v ≠ u) : lookupUser (setStore db u r) v = lookupUser db v := by
  induction db with
  | nil => simp [setStore]
  | cons hd tl ih =>
      obtain ⟨k, r0⟩ := hd
      by_cases hk : k = u
      · have hv : ¬ k = v := fun hv => h (hv.symm.trans hk)
        have huv : ¬ u = v := fun e => h e.symm
        simp [lookupUser, setStore, hk, hv, huv, ih]
      · by_cases hv : k = v
        · have hvu : ¬ v = u := hv ▸ hk
          simp [lookupUser, setStore, hk, hv, hvu]
        · simp [lookupUser, setStore, hk, hv, ih]

lemma seenRec_eq (st : St) (u : String) :
    seenRec st u = (lookupUser st.file u).getD ⟨st.tmpl, []⟩ := by
  simp [seenRec, lookupUser_ensure_self]

lemma seenRec_history (st : St) (u : String) :
    (seenRec st u).history = histOf st u := by
  rw [seenRec_eq]
  cases h : lookupUser st.file u <;> simp [histOf, h]

/-- The state written by every mutating operation has the shape
`⟨tmpl', setStore (ensureUser file tmpl u) u ⟨cl, hist⟩⟩`; after the write
the user's stored record is exactly `⟨cl, hist⟩`. -/
lemma lookupUser_upsert (st : St) (u : String) (cl : List Item)
    (hist : List Event) :
    lookupUser (setStore (ensureUser st.file st.tmpl u) u ⟨cl, hist⟩) u
      = some ⟨cl, hist⟩ := by
  rw [lookupUser_set, lookupUser_ensure_self]
  simp

lemma lookupUser_upsert_ne (st : St) (u v : String) (cl : List Item)
    (hist : List Event) (h : v ≠ u) :
    lookupUser (setStore (ensureUser st.file st.tmpl u) u ⟨cl, hist⟩) v
      = lookupUser st.file v := by
  rw [lookupUser_set_ne _ _ _ _ h, lookupUser_ensure_ne _ _ _ _ h]

lemma seenRec_upsert (st : St) (u : String) (cl : List Item)
    (hist : List Event) (tmpl' : List Item) :
    seenRec ⟨tmpl', setStore (ensureUser st.file st.tmpl u) u ⟨cl, hist⟩⟩ u
      = ⟨cl, hist⟩ := by
  rw [seenRec_eq]
  simp [lookupUser_upsert st u cl hist]

lemma hist_upsert (st : St) (u : String) (cl : List Item) (e : Event)
    (tmpl' : List Item) :
    histOf ⟨tmpl', setStore (ensureUser st.file st.tmpl u) u
        ⟨cl, (seenRec st u).history ++ [e]⟩⟩ u
      = histOf st u ++ [e] := by
  have h1 := lookupUser_upsert st u cl ((seenRec st u).history ++ [e])
  rw [← seenRec_history st u]
  simp [histOf, h1]

lemma hist_upsert_ne (st : St) (u v : String) (cl : List Item)
    (hist : List Event) (tmpl' : List Item) (h : v ≠ u) :
    histOf ⟨tmpl', setStore (ensureUser st.file st.tmpl u) u ⟨cl, hist⟩⟩ v
      = histOf st v := by
  simp [histOf, lookupUser_upsert_ne st u v cl hist h]

/-! ## Checklist manipulation lemmas -/

lemma findStep_setFirstDone (cl : List Item) (sid : String) (d : Bool) :
    findStep (setFirstDone cl sid d) sid
      = (findStep cl sid).map (fun s => { s with done := d }) := by
  induction cl with
  | nil => simp [findStep, setFirstDone]
  | cons a l ih =>
      by_cases ha : a.id = sid
      · simp [findStep, setFirstDone, ha]
      · simp [findStep, setFirstDone, ha, ih]

lemma setFirstDone_idem (cl : List Item) (sid : String) (d : Bool) :
    setFirstDone (setFirstDone cl sid d) sid d = setFirstDone cl sid d := by
  induction cl with
  | nil => simp [setFirstDone]
  | cons a l ih =>
      by_cases ha : a.id = sid
      · simp [setFirstDone, ha]
      · simp [setFirstDone, ha, ih]

lemma setFirstDone_ids (cl : List Item) (sid : String) (d : Bool) :
    (setFirstDone cl sid d).map (fun s => s.id) = cl.map (fun s => s.id) := by
  induction cl with
  | nil => simp [setFirstDone]
  | cons a l ih =>
      by_cases ha : a.id = sid
      · simp [setFirstDone, ha]
      · simp [setFirstDone, ha, ih]

lemma completedCount_setFirstDone_true (cl : List Item) (sid : String)
    (s : Item) (hf : findStep cl sid = some s) (hd : s.done = false) :
    completedCount (setFirstDone cl sid true) = completedCount cl + 1 := by
  induction cl with
  | nil => simp [findStep] at hf
  | cons a l ih =>
      by_cases ha : a.id = sid
      · rw [findStep, if_pos ha] at hf
        obtain rfl : a = s := by injection hf
        simp [setFirstDone, ha, completedCount, List.filter_cons, hd]
      · rw [findStep, if_neg ha] at hf
        have H := ih hf
        by_cases hda : a.done = true
        · simp [setFirstDone, ha, completedCount, List.filter_cons, hda]
          simpa [completedCount] using H
        · simp [setFirstDone, ha, completedCount, List.filter_cons, hda]
          simpa [completedCount] using H

/-! ## Equation lemmas for `mark_onboarding_step` -/

lemma mark_eq_format (input : String) (t : Nat) (st : St)
    (h : markParse input = none) :
    mark_onboarding_step input t st
      = ("Format: 'username:step_id' or 'username:step_id:done'", st) := by
  simp [mark_onboarding_step, h]

lemma mark_eq_found (input : String) (t : Nat) (st : St)
    (user sid : String) (d : Bool) (s : Item)
    (h : markParse input = some (user, sid, d))
    (hf : findStep (seenRec st user).checklist sid = some s) :
    mark_onboarding_step input t st
      = ("✅ Step '" ++ s.title ++ "' marked "
           ++ (if d then "done" else "not done") ++ ".",
         ⟨markTmpl st user sid d,
          setStore (ensureUser st.file st.tmpl user) user
            ⟨setFirstDone (seenRec st user).checklist sid d,
             (seenRec st user).history ++ [Event.stepToggle t sid d]⟩⟩) := by
  simp [mark_onboarding_step, h, hf]

lemma mark_eq_notfound (input : String) (t : Nat) (st : St)
    (user sid : String) (d : Bool)
    (h : markParse input = some (user, sid, d))
    (hf : findStep (seenRec st user).checklist sid = none) :
    mark_onboarding_step input t st
      = ("❌ Step '" ++ sid ++ "' not found. Available steps: "
           ++ joinComma ((seenRec st user).checklist.map (fun s => s.id)),
         st) := by
  simp [mark_onboarding_step, h, hf]

/-! ## The store invariant holds initially and is preserved -/

lemma inv_init : Inv initSt := by
  constructor
  · rfl
  · intro u r h
    simp [initSt, lookupUser] at h

lemma inv_seen (st : St) (u : String) (hI : Inv st) :
    (seenRec st u).checklist.map (fun s => s.id) = defaultIds := by
  rw [seenRec_eq]
  cases h : lookupUser st.file u with
  | some r => simpa using hI.2 u r h
  | none => simpa using hI.1

lemma inv_upsert (st : St) (u : String) (cl : List Item) (hist : List Event)
    (tmpl' : List Item)
    (hI : Inv st)
    (htmpl : tmpl'.map (fun s => s.id) = defaultIds)
    (hcl : cl.map (fun s => s.id) = defaultIds) :
    Inv ⟨tmpl', setStore (ensureUser st.file st.tmpl u) u ⟨cl, hist⟩⟩ := by
  refine ⟨htmpl, ?_⟩
  intro v r hr
  by_cases hv : v = u
  · subst hv
    rw [lookupUser_upsert st v cl hist] at hr
    obtain rfl : (⟨cl, hist⟩ : UserRec) = r := by injection hr
    exact hcl
  · rw [lookupUser_upsert_ne st u v cl hist hv] at hr
    exact hI.2 v r hr

lemma inv_step (op : Op) (st : St) (hI : Inv st) : Inv (step op st) := by
  cases op with
  | getOp u => exact hI
  | markOp input t =>
      cases h : markParse input with
      | none => simpa [step, mark_eq_format input t st h] using hI
      | some p =>
          obtain ⟨user, sid, d⟩ := p
          cases hf : findStep (seenRec st user).checklist sid with
          | none => simpa [step, mark_eq_notfound input t st user sid d h hf] using hI
          | some s =>
              rw [step, mark_eq_found input t st user sid d s h hf]
              refine inv_upsert st user _ _ _ hI ?_ ?_
              · unfold markTmpl
                by_cases hfr : (lookupUser st.file user).isNone
                · simp [hfr, setFirstDone_ids, hI.1]
                · simp [hfr, hI.1]
              · rw [setFirstDone_ids]
                exact inv_seen st user hI
  | sandboxOp u t1 t2 =>
      rw [step, request_sandbox_access]
      exact inv_upsert st u _ _ _ hI hI.1 (inv_seen st u hI)
  | dummyOp q t1 t2 =>
      rw [step, request_dummy_data]
      exact inv_upsert st _ _ _ _ hI hI.1 (inv_seen st _ hI)

/-! ## History extension lemmas -/

/-- Every `_save` in the code writes a state of this upsert shape, where
the saved history is the loaded history plus one appended event; such a
write extends every user's history (by `[e]` for the written user, by
`[]` for every other). -/
lemma hist_upsert_ext (st : St) (u : String) (cl : List Item) (e : Event)
    (tmpl' : List Item) (v : String) :
    ∃ tail,
      histOf ⟨tmpl', setStore (ensureUser st.file st.tmpl u) u
          ⟨cl, (seenRec st u).history ++ [e]⟩⟩ v
        = histOf st v ++ tail := by
  by_cases hv : v = u
  · subst hv
    exact ⟨[e], hist_upsert st v cl e tmpl'⟩
  · exact ⟨[], by simpa using hist_upsert_ne st u v cl _ tmpl' hv⟩

lemma step_hist (op : Op) (st : St) (u : String) :
    ∃ tail, histOf (step op st) u = histOf st u ++ tail := by
  cases op with
  | getOp v => exact ⟨[], by simp [step, get_onboarding_checklist]⟩
  | markOp input t =>
      cases h : markParse input with
      | none => exact ⟨[], by simp [step, mark_eq_format input t st h]⟩
      | some p =>
          obtain ⟨user, sid, d⟩ := p
          cases hf : findStep (seenRec st user).checklist sid with
          | none =>
              exact ⟨[], by simp [step, mark_eq_notfound input t st user sid d h hf]⟩
          | some s =>
              rw [step, mark_eq_found input t st user sid d s h hf]
              exact hist_upsert_ext st user _ _ _ u
  | sandboxOp v t1 t2 =>
      rw [step, request_sandbox_access]
      exact hist_upsert_ext st v _ _ _ u
  | dummyOp q t1 t2 =>
      rw [step, request_dummy_data]
      exact hist_upsert_ext st _ _ _ _ u

/-! ## Claim theorems -/

set_option maxRecDepth 10000

/-- Claim C1, failing input.  The claim says a fresh
`get_onboarding_checklist` call always shows the 8 default items all
not-done with progress `0/8`, regardless of operations previously
performed for other users.  The code violates this:
`_ensure_user` installs `DEFAULT_CHECKLIST.copy()`, a shallow copy whose
item dicts are shared with the module-level template, so marking a step
for a brand-new user mutates the template itself; the next fresh user
(`bob` here, absent from the store) then sees `d1-setup` already done and
progress `1/8`. -/
theorem c1_fresh_get_after_other_users_mark :
    lookupUser (mark_onboarding_step "alice:d1-setup" 0 initSt).2.file "bob" = none ∧
    (get_onboarding_checklist "bob" (mark_onboarding_step "alice:d1-setup" 0 initSt).2).1
      = "Your Onboarding Checklist:\n\n✅ Day 1: Laptop, SSO, email, chat\n⭕ Join team channels & calendars\n⭕ Install dev/tools (IDE, VPN, ticketing)\n⭕ Request sandbox access\n⭕ Security Awareness training\n⭕ Data Protection training\n⭕ Get dummy data in sandbox\n⭕ 5-min end-of-week demo\n\nProgress: 1/8 completed" ∧
    completedCount (seenRec (mark_onboarding_step "alice:d1-setup" 0 initSt).2 "bob").checklist = 1 := by
  decide

/-- Claim C2, counterexample to the claim as stated.  Marking
`alice:d1-setup` done when it is already done leaves the progress count
unchanged (1, not 2), so "progress incremented by exactly 1" fails for an
already-done valid step id. -/
theorem c2_counterexample_already_done :
    markParse "alice:d1-setup" = some ("alice", "d1-setup", true) ∧
    (findStep (seenRec (mark_onboarding_step "alice:d1-setup" 0 initSt).2 "alice").checklist
        "d1-setup").isSome = true ∧
    completedCount (seenRec (mark_onboarding_step "alice:d1-setup" 0 initSt).2 "alice").checklist = 1 ∧
    completedCount (seenRec (mark_onboarding_step "alice:d1-setup" 1
        (mark_onboarding_step "alice:d1-setup" 0 initSt).2).2 "alice").checklist = 1 := by
  decide

/-- Claim C2 as amended: for every composite input parsing to
`(user, sid, done=true)` and every store, if `sid` names an item of the
checklist the user sees that is NOT already done, then after the mark the
checklist `get_onboarding_checklist` renders shows that item done and a
progress count incremented by exactly 1; if the item was already done the
count is unchanged (see the counterexample). -/
theorem c2_mark_increments_progress (input user sid : String) (t : Nat)
    (st : St) (s : Item)
    (hp : markParse input = some (user, sid, true))
    (hf : findStep (seenRec st user).checklist sid = some s)
    (hd : s.done = false) :
    (get_onboarding_checklist user (mark_onboarding_step input t st).2).1
      = renderChecklist (setFirstDone (seenRec st user).checklist sid true) ∧
    (findStep (seenRec (mark_onboarding_step input t st).2 user).checklist sid).map
        (fun i => i.done) = some true ∧
    completedCount (seenRec (mark_onboarding_step input t st).2 user).checklist
      = completedCount (seenRec st user).checklist + 1 := by
  have hm := mark_eq_found input t st user sid true s hp hf
  have hseen : seenRec (mark_onboarding_step input t st).2 user
      = ⟨setFirstDone (seenRec st user).checklist sid true,
         (seenRec st user).history ++ [Event.stepToggle t sid true]⟩ := by
    rw [hm]
    exact seenRec_upsert st user _ _ _
  refine ⟨?_, ?_, ?_⟩
  · simp [get_onboarding_checklist, hseen]
  · rw [hseen]
    simp [findStep_setFirstDone, hf]
  · rw [hseen]
    exact completedCount_setFirstDone_true _ _ s hf hd

theorem c2_mark_increments_progress_witness :
    markParse "bob:demo" = some ("bob", "demo", true) ∧
    findStep (seenRec initSt "bob").checklist "demo"
      = some ⟨"demo", "5-min end-of-week demo", false⟩ ∧
    completedCount (seenRec (mark_onboarding_step "bob:demo" 0 initSt).2 "bob").checklist
      = completedCount (seenRec initSt "bob").checklist + 1 := by
  refine ⟨by decide, by decide, ?_⟩
  exact (c2_mark_increments_progress "bob:demo" "bob" "demo" 0 initSt
    ⟨"demo", "5-min end-of-week demo", false⟩ (by decide) (by decide) rfl).2.2

/-- Claim C3: marking the same valid step done twice appends two history
events (one per call) while the checklist is unchanged by the second
call. -/
theorem c3_mark_twice_idempotent_state (input user sid : String)
    (t1 t2 : Nat) (st : St) (s : Item)
    (hp : markParse input = some (user, sid, true))
    (hf : findStep (seenRec st user).checklist sid = some s) :
    (seenRec (mark_onboarding_step input t2 (mark_onboarding_step input t1 st).2).2 user).checklist
      = (seenRec (mark_onboarding_step input t1 st).2 user).checklist ∧
    histOf (mark_onboarding_step input t2 (mark_onboarding_step input t1 st).2).2 user
      = histOf st user
          ++ [Event.stepToggle t1 sid true, Event.stepToggle t2 sid true] := by
  have hm1 := mark_eq_found input t1 st user sid true s hp hf
  have hseen1 : seenRec (mark_onboarding_step input t1 st).2 user
      = ⟨setFirstDone (seenRec st user).checklist sid true,
         (seenRec st user).history ++ [Event.stepToggle t1 sid true]⟩ := by
    rw [hm1]
    exact seenRec_upsert st user _ _ _
  have hhist1 : histOf (mark_onboarding_step input t1 st).2 user
      = histOf st user ++ [Event.stepToggle t1 sid true] := by
    rw [hm1]
    exact hist_upsert st user _ _ _
  have hf2 : findStep (seenRec (mark_onboarding_step input t1 st).2 user).checklist sid
      = some { s with done := true } := by
    rw [hseen1]
    simp [findStep_setFirstDone, hf]
  have hm2 := mark_eq_found input t2 (mark_onboarding_step input t1 st).2
    user sid true { s with done := true } hp hf2
  have hseen2 : seenRec (mark_onboarding_step input t2 (mark_onboarding_step input t1 st).2).2 user
      = ⟨setFirstDone (seenRec (mark_onboarding_step input t1 st).2 user).checklist sid true,
         (seenRec (mark_onboarding_step input t1 st).2 user).history
           ++ [Event.stepToggle t2 sid true]⟩ := by
    rw [hm2]
    exact seenRec_upsert _ user _ _ _
  constructor
  · rw [hseen2, hseen1]
    simp [setFirstDone_idem]
  · have hhist2 : histOf (mark_onboarding_step input t2 (mark_onboarding_step input t1 st).2).2 user
        = histOf (mark_onboarding_step input t1 st).2 user
            ++ [Event.stepToggle t2 sid true] := by
      rw [hm2]
      exact hist_upsert _ user _ _ _
    rw [hhist2, hhist1, List.append_assoc]
    rfl

theorem c3_mark_twice_idempotent_state_witness :
    markParse "carol:sandbox" = some ("carol", "sandbox", true) ∧
    findStep (seenRec initSt "carol").checklist "sandbox"
      = some ⟨"sandbox", "Request sandbox access", false⟩ ∧
    histOf (mark_onboarding_step "carol:sandbox" 7
        (mark_onboarding_step "carol:sandbox" 3 initSt).2).2 "carol"
      = histOf initSt "carol"
          ++ [Event.stepToggle 3 "sandbox" true, Event.stepToggle 7 "sandbox" true] := by
  refine ⟨by decide, by decide, ?_⟩
  exact (c3_mark_twice_idempotent_state "carol:sandbox" "carol" "sandbox" 3 7 initSt
    ⟨"sandbox", "Request sandbox access", false⟩ (by decide) (by decide)).2

/-- Claim C4: with exactly two colon-separated parts the done flag is
true; with a third part present the flag is true exactly when that part,
lowercased, is `done`, `true`, or `yes`. -/
theorem c4_done_flag_semantics (input : String) :
    ((splitOnColon input).length = 2 →
       markParse input = some ((splitOnColon input).getD 0 "",
         (splitOnColon input).getD 1 "", true)) ∧
    (3 ≤ (splitOnColon input).length →
       ∀ user sid d, markParse input = some (user, sid, d) →
         (d = true ↔ (lowerStr ((splitOnColon input).getD 2 "") = "done" ∨
                      lowerStr ((splitOnColon input).getD 2 "") = "true" ∨
                      lowerStr ((splitOnColon input).getD 2 "") = "yes"))) := by
  constructor
  · intro h2
    simp [markParse, h2]
  · intro h3 user sid d hp
    have hlt : ¬ (splitOnColon input).length < 2 := by omega
    have hne : ¬ (splitOnColon input).length = 2 := by omega
    simp only [markParse] at hp
    rw [if_neg hlt, if_neg hne] at hp
    injection hp with h
    have hd : d = truthyWords.contains (lowerStr ((splitOnColon input).getD 2 "")) :=
      (congrArg (fun p => p.2.2) h).symm
    subst hd
    simp [truthyWords]

theorem c4_done_flag_semantics_witness :
    markParse "alice:demo" = some ("alice", "demo", true) ∧
    (true = true ↔ (lowerStr "YES" = "done" ∨ lowerStr "YES" = "true" ∨
                    lowerStr "YES" = "yes")) := by
  constructor
  · exact (c4_done_flag_semantics "alice:demo").1 (by decide)
  · have h := (c4_done_flag_semantics "alice:demo:YES").2 (by decide)
      "alice" "demo" true (by decide)
    have e : (splitOnColon "alice:demo:YES").getD 2 "" = "YES" := by decide
    rw [e] at h
    exact h

/-- Claim C5: `mark_onboarding_step` is a total function (the embedding
is total, matching the code's string-result error convention).  For an
input with fewer than two colon-separated parts it returns the format
message, and for a composite naming an unknown step id it returns the
not-found message listing exactly the 8 template ids for that user; in
both cases the state (file and template) is returned unchanged, so
nothing is saved and no history event is appended. -/
theorem c5_mark_error_paths (input : String) (t : Nat) (st : St)
    (hI : Inv st) :
    ((splitOnColon input).length < 2 →
       mark_onboarding_step input t st
         = ("Format: 'username:step_id' or 'username:step_id:done'", st)) ∧
    (∀ user sid d, markParse input = some (user, sid, d) →
       findStep (seenRec st user).checklist sid = none →
       mark_onboarding_step input t st
         = ("❌ Step '" ++ sid
              ++ "' not found. Available steps: d1-setup, join-channels, install-tools, sandbox, train-sec, train-data, dummy, demo",
            st)) := by
  constructor
  · intro hlen
    apply mark_eq_format
    simp [markParse, hlen]
  · intro user sid d hp hf
    rw [mark_eq_notfound input t st user sid d hp hf, inv_seen st user hI]
    have e : joinComma defaultIds
        = "d1-setup, join-channels, install-tools, sandbox, train-sec, train-data, dummy, demo" := by
      decide
    rw [e, String.append_assoc]
    rfl

theorem c5_mark_error_paths_witness :
    (mark_onboarding_step "alice" 0 initSt
       = ("Format: 'username:step_id' or 'username:step_id:done'", initSt)) ∧
    (mark_onboarding_step "alice:bogus" 0 initSt
       = ("❌ Step 'bogus' not found. Available steps: d1-setup, join-channels, install-tools, sandbox, train-sec, train-data, dummy, demo",
          initSt)) := by
  constructor
  · exact (c5_mark_error_paths "alice" 0 initSt inv_init).1 (by decide)
  · exact (c5_mark_error_paths "alice:bogus" 0 initSt inv_init).2
      "alice" "bogus" true (by decide) (by decide)

/-- Claim C6, failing input.  The claim (and the spec) requires two
calls to `request_sandbox_access` in immediate succession to produce two
distinct ticket identifiers.  The code derives the ticket from
`int(time.time())`, i.e. whole seconds; two calls within the same second
(here at 5.0000001s and 5.0000003s) produce the SAME ticket
`SANDBOX-5`, though both history events are appended under the same
user. -/
theorem c6_same_second_duplicate_tickets :
    sandboxTicket (5 * nsPerSec + 100) = sandboxTicket (5 * nsPerSec + 300) ∧
    (request_sandbox_access "alice" (5 * nsPerSec + 100) (5 * nsPerSec + 200) initSt).1
      = "🎫 Sandbox access requested! Ticket: SANDBOX-5\n📅 Expected within 1 business day.\n💡 You'll receive an email when it's ready." ∧
    histOf (request_sandbox_access "alice" (5 * nsPerSec + 300) (5 * nsPerSec + 400)
        (request_sandbox_access "alice" (5 * nsPerSec + 100) (5 * nsPerSec + 200) initSt).2).2 "alice"
      = [Event.sandboxRequest (5 * nsPerSec + 200) "SANDBOX-5",
         Event.sandboxRequest (5 * nsPerSec + 400) "SANDBOX-5"] := by
  decide

/-- Claim C7: a `request_dummy_data` call whose input has no colon (a
bare username) defaults the dataset to `sample_orders` and the size to
`small`; the reply contains the generated request id
(`DUMMY-` plus the whole-second timestamp), the dataset and size, and
the fixed no-PII reminder, and the appended history event records the
same defaults and request id. -/
theorem c7_dummy_data_defaults (query : String) (tReq tEv : Nat) (st : St)
    (h : splitOnColon query = [query]) :
    (request_dummy_data query tReq tEv st).1
      = "📊 Dummy data requested!\n🎫 Request ID: " ++ dummyReq tReq
          ++ "\n📋 Dataset: " ++ "sample_orders" ++ " (" ++ "small"
          ++ ")\n👤 Notifying Jean from Data Team\n⚠️  Reminder: Use sandbox only - no PII allowed!" ∧
    dummyReq tReq = "DUMMY-" ++ toString (tReq / nsPerSec) ∧
    histOf (request_dummy_data query tReq tEv st).2 query
      = histOf st query
          ++ [Event.dummyData tEv "sample_orders" "small" (dummyReq tReq)] := by
  refine ⟨?_, rfl, ?_⟩
  · simp [request_dummy_data, h]
  · rw [request_dummy_data]
    simp only [h, List.isEmpty_cons, List.length_cons, List.length_nil, List.getD]
    norm_num
    exact hist_upsert st query _ _ _

theorem c7_dummy_data_defaults_witness :
    (request_dummy_data "alice" 0 0 initSt).1
      = "📊 Dummy data requested!\n🎫 Request ID: " ++ dummyReq 0
          ++ "\n📋 Dataset: " ++ "sample_orders" ++ " (" ++ "small"
          ++ ")\n👤 Notifying Jean from Data Team\n⚠️  Reminder: Use sandbox only - no PII allowed!" ∧
    dummyReq 0 = "DUMMY-" ++ toString (0 / nsPerSec) ∧
    histOf (request_dummy_data "alice" 0 0 initSt).2 "alice"
      = histOf initSt "alice"
          ++ [Event.dummyData 0 "sample_orders" "small" (dummyReq 0)] :=
  c7_dummy_data_defaults "alice" 0 0 initSt (by decide)

/-- Claim C8, counterexample.  The claim says an empty input to
`request_dummy_data` performs the operation under the literal user id
`"unknown"`.  In the code `"".split(":") == [""]` is non-empty, so the
`if parts else "unknown"` fallback is dead and the user id is the empty
string: after the call the store has no `"unknown"` record, while the
`""` record holds the history event. -/
theorem c8_counterexample_empty_input :
    lookupUser (request_dummy_data "" 0 0 initSt).2.file "unknown" = none ∧
    lookupUser (request_dummy_data "" 0 0 initSt).2.file ""
      = some ⟨DEFAULT_CHECKLIST,
              [Event.dummyData 0 "sample_orders" "small" "DUMMY-0"]⟩ := by
  decide

/-- Claim C8 as amended: an empty input string is handled under the
literal user id `""` (the empty string), not `"unknown"`: the history
event (with the default dataset and size) is appended to the `""`
record, and the `"unknown"` record is untouched.  The `"unknown"`
fallback in the code is unreachable because splitting always yields at
least one part. -/
theorem c8_empty_input_logs_under_empty_string (tReq tEv : Nat) (st : St) :
    histOf (request_dummy_data "" tReq tEv st).2 ""
      = histOf st ""
          ++ [Event.dummyData tEv "sample_orders" "small" (dummyReq tReq)] ∧
    histOf (request_dummy_data "" tReq tEv st).2 "unknown"
      = histOf st "unknown" := by
  have h : splitOnColon "" = [""] := by decide
  constructor
  · rw [request_dummy_data]
    simp only [h, List.isEmpty_cons, List.length_cons, List.length_nil, List.getD]
    norm_num
    exact hist_upsert st "" _ _ _
  · rw [request_dummy_data]
    simp only [h, List.isEmpty_cons, List.length_cons, List.length_nil, List.getD]
    norm_num
    exact hist_upsert_ne st "" "unknown" _ _ _ (by decide)

/-- Claim C9: history is append-only.  For every sequence of store
operations and every user, the user's persisted history after the run is
the history before the run followed by some (possibly empty) list of
newly appended events; no previously written event is mutated or
removed. -/
theorem c9_history_append_only (ops : List Op) (st : St) (u : String) :
    ∃ tail, histOf (run ops st) u = histOf st u ++ tail := by
  induction ops generalizing st with
  | nil => exact ⟨[], by simp [run]⟩
  | cons op ops ih =>
      obtain ⟨t2, h2⟩ := ih (step op st)
      obtain ⟨t1, h1⟩ := step_hist op st u
      refine ⟨t1 ++ t2, ?_⟩
      have hr : run (op :: ops) st = run ops (step op st) := by
        simp [run]
      rw [hr, h2, h1, List.append_assoc]

/-- Claim C10: `get_onboarding_checklist` never writes the persisted
store: the call returns the process state unchanged (in particular the
file is unchanged), so a user record lazily built during the read-only
call is not persisted. -/
theorem c10_get_checklist_pure (user : String) (st : St) :
    (get_onboarding_checklist user st).2 = st ∧
    ((get_onboarding_checklist user st).2).file = st.file :=
  ⟨rfl, rfl⟩

end Onboarding
